import Mathlib

/-!
A verification development for the ECE506Scheduler runtime: a shallow
embedding of the scheduling core (task model, ready queue ordering,
dependency tracking, provider registry, DASH façades, FPGA slot state
machine, accelerator selection and the overlay preload heuristic),
with theorems settling the specified properties against the code.

Conventions of the embedding:
* machine integers become `Int`/`Nat` (no overflow is reachable in the
  modelled arithmetic: counts, ids, priorities stay far below 2^31/2^64);
* timestamps (`std::chrono` time points) become `Int` — only their total
  order is ever consulted;
* fallible I/O collaborators (sysfs writes, GPIO, the bitstream manager)
  become explicit oracle records of booleans;
* concurrent interleavings become explicit event lists driving a step
  function, one step per critical section of the source.
-/

namespace schedrt

/-- `enum class ResourceKind { CPU, ZIP, FFT };` (include/schedrt/task.hpp:12). -/
inductive ResourceKind where
  | CPU
  | ZIP
  | FFT
deriving DecidableEq, Repr, Fintype

/-- The underlying integer of the `ResourceKind` enumerator, used where the
source compares enum values with `<`. -/
def kindRank : ResourceKind → Nat
  | .CPU => 0
  | .ZIP => 1
  | .FFT => 2

/-- `struct Task` (include/schedrt/task.hpp:14-27); the fields the scheduling
core consults.  `release_time` is a `steady_clock` time point, embedded as an
`Int` since only its order matters; `params`, `deadline` and the `ready` flag
play no role in the claims below and are omitted from the record. -/
structure Task where
  id : Nat
  app : String
  priority : Int
  release_time : Int
  depends_on : List Nat
  required : ResourceKind
  est_runtime_ns : Nat
deriving DecidableEq, Repr

/-- `TaskCompare::operator()` (include/schedrt/scheduler.hpp:17-23): the
"less" comparator of the max-heap.  `a` compares below `b` when `a` has lower
priority, or equal priority and later release time, or equal both and larger
id. -/
def taskLt (a b : Task) : Bool :=
  if a.priority ≠ b.priority then decide (a.priority < b.priority)
  else if a.release_time ≠ b.release_time then decide (b.release_time < a.release_time)
  else decide (b.id < a.id)

/-- The element `ReadyQueue::pop_blocking` returns (src/scheduler.cpp:37-42):
`pq_.top()` of a `std::priority_queue` ordered by `TaskCompare`, i.e. a
maximal element under `taskLt`.  The heap is embedded as the list of its
elements; `popBest` computes a maximal element of `t0 :: ts`. -/
def popBest (t0 : Task) (ts : List Task) : Task :=
  ts.foldl (fun best t => if taskLt best t then t else best) t0

theorem taskLt_eq_false_iff (a b : Task) :
    taskLt a b = false ↔
      (b.priority < a.priority ∨
        (a.priority = b.priority ∧
          (a.release_time < b.release_time ∨
            (a.release_time = b.release_time ∧ a.id ≤ b.id)))) := by
  unfold taskLt
  split_ifs with h1 h2 <;> simp_all <;> omega

theorem taskLt_false_refl (a : Task) : taskLt a a = false := by
  rw [taskLt_eq_false_iff]; omega

theorem taskLt_false_trans {a b c : Task}
    (hab : taskLt a b = false) (hbc : taskLt b c = false) :
    taskLt a c = false := by
  rw [taskLt_eq_false_iff] at hab hbc ⊢
  rcases hab with h | ⟨h1, h2⟩ <;> rcases hbc with h' | ⟨h1', h2'⟩ <;>
    first
      | (left; omega)
      | (rcases h2 with h2 | ⟨h2, h3⟩ <;> rcases h2' with h2' | ⟨h2', h3'⟩ <;>
          first | (left; omega) | (right; omega))

theorem taskLt_true_false {a b : Task}
    (h : taskLt a b = true) : taskLt b a = false := by
  unfold taskLt at h
  rw [taskLt_eq_false_iff]
  split_ifs at h with h1 h2 <;> simp_all
  all_goals omega

/-- `popBest` returns an element of the queue that no element beats under
`TaskCompare`. -/
theorem popBest_maximal : ∀ (ts : List Task) (t0 : Task),
    popBest t0 ts ∈ t0 :: ts ∧ ∀ t ∈ t0 :: ts, taskLt (popBest t0 ts) t = false := by
  intro ts
  induction ts with
  | nil =>
    intro t0
    refine ⟨List.mem_singleton.mpr rfl, ?_⟩
    intro t ht
    rw [List.mem_singleton] at ht
    subst ht
    exact taskLt_false_refl _
  | cons x xs ih =>
    intro t0
    have step : popBest t0 (x :: xs) = popBest (if taskLt t0 x then x else t0) xs := by
      simp [popBest, List.foldl_cons]
    set acc := if taskLt t0 x then x else t0 with hacc
    obtain ⟨hmem, hmax⟩ := ih acc
    have hacc_t0 : taskLt acc t0 = false := by
      by_cases h : taskLt t0 x
      · simp only [hacc, h, if_true]
        exact taskLt_true_false h
      · simp only [hacc, h, if_false]
        exact taskLt_false_refl t0
    have hacc_x : taskLt acc x = false := by
      by_cases h : taskLt t0 x
      · simp only [hacc, h, if_true]
        exact taskLt_false_refl x
      · simp only [hacc, h, if_false]
        exact Bool.eq_false_iff.mpr fun hh => h (by simpa using hh)
    have hres_acc : taskLt (popBest acc xs) acc = false := hmax acc (List.mem_cons_self acc xs)
    constructor
    · rw [step]
      rcases List.mem_cons.mp hmem with h | h
      · rw [h]
        by_cases hx : taskLt t0 x
        · simp only [hacc, hx, if_true] at *
          exact List.mem_cons_of_mem _ (List.mem_cons_self x xs)
        · simp only [hacc, hx, if_false] at *
          exact List.mem_cons_self _ _
      · exact List.mem_cons_of_mem _ (List.mem_cons_of_mem _ h)
    · intro t ht
      rw [step]
      rcases List.mem_cons.mp ht with h | h
      · subst h
        exact taskLt_false_trans hres_acc hacc_t0
      rcases List.mem_cons.mp h with h' | h'
      · subst h'
        exact taskLt_false_trans hres_acc hacc_x
      · exact hmax t (List.mem_cons_of_mem _ h')

/-- C3: `pop_blocking` returns a task maximal under the ordering key
`(-priority, release_time, id)`: against every task `t` in the queue, the
popped task has strictly higher priority, or equal priority and strictly
earlier release time, or equal priority and release time and an id that is
no larger. -/
theorem C3_pop_order (t0 : Task) (ts : List Task) (t : Task) (h : t ∈ t0 :: ts) :
    popBest t0 ts ∈ t0 :: ts ∧
      (t.priority < (popBest t0 ts).priority ∨
        ((popBest t0 ts).priority = t.priority ∧
          ((popBest t0 ts).release_time < t.release_time ∨
            ((popBest t0 ts).release_time = t.release_time ∧
              (popBest t0 ts).id ≤ t.id)))) := by
  obtain ⟨hmem, hmax⟩ := popBest_maximal ts t0
  exact ⟨hmem, (taskLt_eq_false_iff _ _).mp (hmax t h)⟩

/-- Witness for C3 at a concrete three-task queue: ids 1,2,3 with
priorities 1,5,5; the popped task is id 2 (priority 5, lowest id among the
priority-5 pair). -/
theorem C3_pop_order_witness :
    popBest (Task.mk 1 "a" 1 0 [] .CPU 0)
        [Task.mk 3 "c" 5 0 [] .CPU 0, Task.mk 2 "b" 5 0 [] .CPU 0] ∈
      Task.mk 1 "a" 1 0 [] .CPU 0 ::
        [Task.mk 3 "c" 5 0 [] .CPU 0, Task.mk 2 "b" 5 0 [] .CPU 0] ∧
      ((Task.mk 3 "c" 5 0 [] .CPU 0).priority <
          (popBest (Task.mk 1 "a" 1 0 [] .CPU 0)
            [Task.mk 3 "c" 5 0 [] .CPU 0, Task.mk 2 "b" 5 0 [] .CPU 0]).priority ∨
        ((popBest (Task.mk 1 "a" 1 0 [] .CPU 0)
            [Task.mk 3 "c" 5 0 [] .CPU 0, Task.mk 2 "b" 5 0 [] .CPU 0]).priority =
            (Task.mk 3 "c" 5 0 [] .CPU 0).priority ∧
          ((popBest (Task.mk 1 "a" 1 0 [] .CPU 0)
              [Task.mk 3 "c" 5 0 [] .CPU 0, Task.mk 2 "b" 5 0 [] .CPU 0]).release_time <
              (Task.mk 3 "c" 5 0 [] .CPU 0).release_time ∨
            ((popBest (Task.mk 1 "a" 1 0 [] .CPU 0)
                [Task.mk 3 "c" 5 0 [] .CPU 0, Task.mk 2 "b" 5 0 [] .CPU 0]).release_time =
                (Task.mk 3 "c" 5 0 [] .CPU 0).release_time ∧
              (popBest (Task.mk 1 "a" 1 0 [] .CPU 0)
                  [Task.mk 3 "c" 5 0 [] .CPU 0, Task.mk 2 "b" 5 0 [] .CPU 0]).id ≤
                (Task.mk 3 "c" 5 0 [] .CPU 0).id)))) :=
  C3_pop_order (Task.mk 1 "a" 1 0 [] .CPU 0)
    [Task.mk 3 "c" 5 0 [] .CPU 0, Task.mk 2 "b" 5 0 [] .CPU 0]
    (Task.mk 3 "c" 5 0 [] .CPU 0) (by decide)

/-- `DependencyManager::deps_satisfied` (src/scheduler.cpp:18-22): every id in
`t.depends_on` must be in the completed set. The `std::set` is embedded as a
list queried by membership. -/
def deps_satisfied (completed : List Nat) (t : Task) : Bool :=
  t.depends_on.all fun d => completed.contains d

/-- `DependencyManager::mark_complete` (src/scheduler.cpp:14-17): set insert. -/
def mark_complete (completed : List Nat) (id : Nat) : List Nat :=
  List.insert id completed

/-- The scheduler state the C2 claim is about (src/scheduler.cpp:162-185):
the waiting pool `waiting_`, the ready queue contents, and the
`DependencyManager`'s completed set. -/
structure SchedState where
  waiting : List Task
  ready : List Task
  completed : List Nat
deriving Repr

/-- One critical section of the concurrent scheduler:
`submit` (src/scheduler.cpp:66-75), one full pass of the dependency
watcher's scan (`dep_loop`, src/scheduler.cpp:112-131), or one worker
iteration popping and running a task whose reported outcome is `ok`
(`worker_loop`, src/scheduler.cpp:133-153).  The failure reports of
`worker_loop` (unknown app, no accelerator, kernel failure) are all runs
with `ok = false`; none of them calls `mark_complete`. -/
inductive Event where
  | submit (t : Task)
  | promote
  | runStep (ok : Bool)
deriving Repr

/-- One scheduler step; also returns the `[RESULT]`-line reports `(id, ok)`
emitted during the step (src/scheduler.cpp:140,145,150). -/
def step (s : SchedState) : Event → SchedState × List (Nat × Bool)
  | .submit t =>
    if deps_satisfied s.completed t then
      ({ s with ready := s.ready ++ [t] }, [])
    else
      ({ s with waiting := s.waiting ++ [t] }, [])
  | .promote =>
    ({ s with
        waiting := s.waiting.filter fun t => !deps_satisfied s.completed t,
        ready := s.ready ++ s.waiting.filter fun t => deps_satisfied s.completed t }, [])
  | .runStep ok =>
    match s.ready with
    | [] => (s, [])
    | t0 :: ts =>
      ({ s with
          ready := (t0 :: ts).erase (popBest t0 ts),
          completed :=
            if ok then mark_complete s.completed (popBest t0 ts).id else s.completed },
        [((popBest t0 ts).id, ok)])

/-- Run a sequence of scheduler events, accumulating the reports. -/
def exec (s : SchedState) : List Event → SchedState × List (Nat × Bool)
  | [] => (s, [])
  | e :: es =>
    let p := step s e
    let q := exec p.1 es
    (q.1, p.2 ++ q.2)

/-- Scheduler start state: nothing waiting, nothing ready, nothing completed. -/
def schedInit : SchedState := ⟨[], [], []⟩

theorem exec_append (s : SchedState) (es₁ es₂ : List Event) :
    exec s (es₁ ++ es₂) =
      ((exec (exec s es₁).1 es₂).1, (exec s es₁).2 ++ (exec (exec s es₁).1 es₂).2) := by
  induction es₁ generalizing s with
  | nil => simp [exec]
  | cons e es ih => simp [exec, ih, List.append_assoc]

theorem step_completed_sub (s : SchedState) (e : Event) (tid : Nat)
    (h : tid ∈ (step s e).1.completed) :
    tid ∈ s.completed ∨ (tid, true) ∈ (step s e).2 := by
  cases e with
  | submit t =>
    left
    simp only [step] at h
    split_ifs at h <;> exact h
  | promote =>
    left
    exact h
  | runStep ok =>
    cases hr : s.ready with
    | nil => left; simpa [step, hr] using h
    | cons t0 ts =>
      simp only [step, hr] at h ⊢
      by_cases hok : ok
      · subst hok
        simp only [if_true, mark_complete, List.mem_insert_iff] at h
        rcases h with h | h
        · right; simp [h]
        · left; exact h
      · rw [if_neg (by simpa using hok)] at h
        exact Or.inl h

theorem exec_completed_sub (es : List Event) (s : SchedState) (tid : Nat)
    (h : tid ∈ (exec s es).1.completed) :
    tid ∈ s.completed ∨ (tid, true) ∈ (exec s es).2 := by
  induction es generalizing s with
  | nil => exact Or.inl h
  | cons e es ih =>
    simp only [exec] at h ⊢
    rcases ih (step s e).1 h with h' | h'
    · rcases step_completed_sub s e tid h' with h'' | h''
      · exact Or.inl h''
      · exact Or.inr (List.mem_append_left _ h'')
    · exact Or.inr (List.mem_append_right _ h')

theorem step_starved (s : SchedState) (e : Event) (D : Task) (d : Nat)
    (hd : d ∈ D.depends_on) (hD : D ∈ s.waiting) (hc : d ∉ s.completed)
    (hrep : (d, true) ∉ (step s e).2) :
    D ∈ (step s e).1.waiting ∧ d ∉ (step s e).1.completed := by
  have hds : deps_satisfied s.completed D = false := by
    unfold deps_satisfied
    rw [List.all_eq_false]
    exact ⟨d, hd, by simpa using hc⟩
  cases e with
  | submit t =>
    simp only [step]
    split_ifs
    · exact ⟨hD, hc⟩
    · exact ⟨List.mem_append_left _ hD, hc⟩
  | promote =>
    refine ⟨?_, hc⟩
    simp only [step, List.mem_filter]
    exact ⟨hD, by simp [hds]⟩
  | runStep ok =>
    cases hr : s.ready with
    | nil =>
      refine ⟨?_, ?_⟩ <;> simp only [step, hr] <;> assumption
    | cons t0 ts =>
      simp only [step, hr] at hrep ⊢
      refine ⟨hD, ?_⟩
      by_cases hok : ok
      · subst hok
        simp only [if_true, mark_complete, List.mem_insert_iff]
        rintro (h | h)
        · exact hrep (by simp [h])
        · exact hc h
      · rw [if_neg (by simpa using hok)]
        exact hc

theorem exec_starved (es : List Event) (s : SchedState) (D : Task) (d : Nat)
    (hd : d ∈ D.depends_on) (hD : D ∈ s.waiting) (hc : d ∉ s.completed)
    (hrep : (d, true) ∉ (exec s es).2) :
    D ∈ (exec s es).1.waiting ∧ d ∉ (exec s es).1.completed := by
  induction es generalizing s with
  | nil => exact ⟨hD, hc⟩
  | cons e es ih =>
    simp only [exec] at hrep ⊢
    have hrep1 : (d, true) ∉ (step s e).2 := fun h => hrep (List.mem_append_left _ h)
    have hrep2 : (d, true) ∉ (exec (step s e).1 es).2 := fun h =>
      hrep (List.mem_append_right _ h)
    obtain ⟨hD', hc'⟩ := step_starved s e D d hd hD hc hrep1
    exact ih (step s e).1 hD' hc' hrep2

/-- C2: a failed task never enters the completed set, and its dependents
starve.  Part 1: in any execution, every id in the completed set was reported
with `ok = true` — so a task all of whose reports say `ok = false` is never
added to `completed`.  Part 2: if task `D` sits in the waiting pool with a
dependency `d` that is never successfully reported in the whole execution,
then `D` is still in the waiting pool at the end (never promoted to the ready
queue) and `deps_satisfied D` is still false. -/
theorem C2_failed_dep_starves (es es₂ : List Event) (D : Task) (d : Nat)
    (hd : d ∈ D.depends_on)
    (hD : D ∈ (exec schedInit es).1.waiting)
    (hnever : (d, true) ∉ (exec schedInit (es ++ es₂)).2) :
    (∀ tid, tid ∈ (exec schedInit (es ++ es₂)).1.completed →
        (tid, true) ∈ (exec schedInit (es ++ es₂)).2) ∧
      D ∈ (exec schedInit (es ++ es₂)).1.waiting ∧
      deps_satisfied (exec schedInit (es ++ es₂)).1.completed D = false := by
  have hpart1 : ∀ tid, tid ∈ (exec schedInit (es ++ es₂)).1.completed →
      (tid, true) ∈ (exec schedInit (es ++ es₂)).2 := by
    intro tid h
    rcases exec_completed_sub (es ++ es₂) schedInit tid h with h' | h'
    · exact absurd h' (by simp [schedInit])
    · exact h'
  have hc : d ∉ (exec schedInit es).1.completed := by
    intro h
    rcases exec_completed_sub es schedInit d h with h' | h'
    · exact absurd h' (by simp [schedInit])
    · rw [exec_append] at hnever
      exact hnever (List.mem_append_left _ h')
  have hrep₂ : (d, true) ∉ (exec (exec schedInit es).1 es₂).2 := by
    rw [exec_append] at hnever
    exact fun h => hnever (List.mem_append_right _ h)
  obtain ⟨hw, hc'⟩ := exec_starved es₂ (exec schedInit es).1 D d hd hD hc hrep₂
  refine ⟨hpart1, ?_, ?_⟩
  · rw [exec_append]; exact hw
  · rw [exec_append]
    unfold deps_satisfied
    rw [List.all_eq_false]
    exact ⟨d, hd, by simpa using hc'⟩

/-- Witness for C2: task 1 is submitted and fails; task 2 depends on task 1,
stays waiting through a watcher pass and a further (empty) run step, and its
dependencies are still unsatisfied at the end. -/
theorem C2_failed_dep_starves_witness :
    (∀ tid,
        tid ∈ (exec schedInit
            ([.submit (Task.mk 1 "a" 0 0 [] .CPU 0),
              .submit (Task.mk 2 "b" 0 0 [1] .CPU 0),
              .runStep false] ++ [.promote, .runStep true])).1.completed →
          (tid, true) ∈ (exec schedInit
            ([.submit (Task.mk 1 "a" 0 0 [] .CPU 0),
              .submit (Task.mk 2 "b" 0 0 [1] .CPU 0),
              .runStep false] ++ [.promote, .runStep true])).2) ∧
      Task.mk 2 "b" 0 0 [1] .CPU 0 ∈ (exec schedInit
          ([.submit (Task.mk 1 "a" 0 0 [] .CPU 0),
            .submit (Task.mk 2 "b" 0 0 [1] .CPU 0),
            .runStep false] ++ [.promote, .runStep true])).1.waiting ∧
      deps_satisfied
          (exec schedInit
            ([.submit (Task.mk 1 "a" 0 0 [] .CPU 0),
              .submit (Task.mk 2 "b" 0 0 [1] .CPU 0),
              .runStep false] ++ [.promote, .runStep true])).1.completed
          (Task.mk 2 "b" 0 0 [1] .CPU 0) = false :=
  C2_failed_dep_starves
    [.submit (Task.mk 1 "a" 0 0 [] .CPU 0),
     .submit (Task.mk 2 "b" 0 0 [1] .CPU 0),
     .runStep false] [.promote, .runStep true]
    (Task.mk 2 "b" 0 0 [1] .CPU 0) 1 (by decide) (by decide) (by decide)

end schedrt

namespace dash

open schedrt

/-- `struct Provider` (include/dash/provider.hpp:8-13). -/
structure Provider where
  op : String
  kind : ResourceKind
  instance_id : Nat
  priority : Int
deriving DecidableEq, Repr

/-- The strict comparator `register_provider` sorts with
(src/dash/provider.cpp:12-18): lexicographic on
`(op, priority, kind, instance_id)`; the `kind` enum is compared through its
underlying integer (`kindRank`). -/
def provLt (a b : Provider) : Bool :=
  if a.op ≠ b.op then decide (a.op < b.op)
  else if a.priority ≠ b.priority then decide (a.priority < b.priority)
  else if a.kind ≠ b.kind then decide (kindRank a.kind < kindRank b.kind)
  else decide (a.instance_id < b.instance_id)

/-- The comparator's sort key, as a lexicographic tuple. -/
def provKey (p : Provider) : Lex (String × Lex (Int × Lex (Nat × Nat))) :=
  toLex (p.op, toLex (p.priority, toLex (kindRank p.kind, p.instance_id)))

theorem kindRank_inj {x y : ResourceKind} : kindRank x = kindRank y ↔ x = y := by
  cases x <;> cases y <;> decide

theorem provLt_iff (a b : Provider) : provLt a b = true ↔ provKey a < provKey b := by
  unfold provLt provKey
  rw [Prod.Lex.lt_iff]
  simp only [Prod.Lex.lt_iff]
  split_ifs with h1 h2 h3
  · simp [h1]
  · have hop : a.op = b.op := not_not.mp (by simpa using h1)
    simp [hop, lt_irrefl, h2]
  · have hop : a.op = b.op := not_not.mp (by simpa using h1)
    have hpr : a.priority = b.priority := not_not.mp (by simpa using h2)
    simp [hop, hpr, lt_irrefl, h3, kindRank_inj]
  · have hop : a.op = b.op := not_not.mp (by simpa using h1)
    have hpr : a.priority = b.priority := not_not.mp (by simpa using h2)
    have hk : a.kind = b.kind := not_not.mp (by simpa using h3)
    simp [hop, hpr, hk, lt_irrefl]

/-- `a` at or before `b` in the order `std::sort` establishes: `b` does not
compare strictly below `a`. -/
def provLe (a b : Provider) : Prop := provLt b a = false

instance : DecidableRel provLe := fun a b => by unfold provLe; infer_instance

theorem provLe_iff (a b : Provider) : provLe a b ↔ provKey a ≤ provKey b := by
  unfold provLe
  rw [← not_lt, ← provLt_iff]
  simp

instance : IsTotal Provider provLe :=
  ⟨fun a b => by
    rw [provLe_iff, provLe_iff]
    exact le_total _ _⟩

instance : IsTrans Provider provLe :=
  ⟨fun a b c hab hbc => by
    rw [provLe_iff] at *
    exact le_trans hab hbc⟩

/-- `register_provider` (src/dash/provider.cpp:9-19): append the provider,
then sort the whole registry.  `std::sort` produces a permutation of the
vector that is sorted by the comparator; since the comparator inspects every
field of `Provider`, ties hold only between equal records, so the sorted
permutation is unique and insertion sort embeds `std::sort` exactly. -/
def register_provider (g : List Provider) (p : Provider) : List Provider :=
  List.insertionSort provLe (g ++ [p])

/-- `providers_for` (src/dash/provider.cpp:21-26): the registry entries whose
`op` equals the query, in registry order. -/
def providers_for (op : String) (g : List Provider) : List Provider :=
  g.filter fun p => p.op == op

/-- The registry produced by a sequence of `register_provider` calls starting
from the empty registry (`g_providers` at process start). -/
def registry_after (ps : List Provider) : List Provider :=
  ps.foldl register_provider []

theorem registry_after_perm (ps : List Provider) : (registry_after ps).Perm ps := by
  suffices h : ∀ g, (ps.foldl register_provider g).Perm (g ++ ps) by
    simpa using h []
  induction ps with
  | nil => simp
  | cons p ps ih =>
    intro g
    simp only [List.foldl_cons]
    refine (ih (register_provider g p)).trans ?_
    have h1 : (register_provider g p).Perm (g ++ [p]) :=
      List.perm_insertionSort provLe (g ++ [p])
    have h2 : (g ++ [p]) ++ ps = g ++ (p :: ps) := by simp
    simpa [h2] using h1.append_right ps

theorem foldl_register_sorted (ps : List Provider) :
    ∀ g, List.Sorted provLe g → List.Sorted provLe (ps.foldl register_provider g) := by
  induction ps with
  | nil => intro g hg; simpa using hg
  | cons p ps ih =>
    intro g _
    simp only [List.foldl_cons]
    exact ih _ (List.sorted_insertionSort provLe _)

theorem registry_after_sorted (ps : List Provider) :
    List.Sorted provLe (registry_after ps) :=
  foldl_register_sorted ps [] List.sorted_nil

theorem provLe_of_op_eq {a b : Provider} (hop : a.op = b.op) (h : provLe a b) :
    a.priority < b.priority ∨
      (a.priority = b.priority ∧
        (kindRank a.kind < kindRank b.kind ∨
          (a.kind = b.kind ∧ a.instance_id ≤ b.instance_id))) := by
  rw [provLe_iff] at h
  unfold provKey at h
  rw [Prod.Lex.le_iff] at h
  simp only [Prod.Lex.le_iff] at h
  rcases h with h | ⟨_, h⟩
  · exact absurd h (by simp [hop])
  · rcases h with h | ⟨h1, h⟩
    · exact Or.inl h
    · refine Or.inr ⟨h1, ?_⟩
      rcases h with h | ⟨h2, h3⟩
      · exact Or.inl h
      · exact Or.inr ⟨kindRank_inj.mp h2, h3⟩

/-- C5: for every registration sequence and every op, `providers_for` returns
exactly the registered providers whose `op` equals the query (as a multiset),
pairwise ordered by `(priority, kind, instance_id)`, and in particular in
non-decreasing priority order. -/
theorem C5_providers_for_sorted (ps : List Provider) (op : String) :
    (providers_for op (registry_after ps)).Perm
        (ps.filter fun p => p.op == op) ∧
      List.Pairwise
        (fun a b => a.priority < b.priority ∨
          (a.priority = b.priority ∧
            (kindRank a.kind < kindRank b.kind ∨
              (a.kind = b.kind ∧ a.instance_id ≤ b.instance_id))))
        (providers_for op (registry_after ps)) ∧
      List.Pairwise (fun a b => a.priority ≤ b.priority)
        (providers_for op (registry_after ps)) := by
  have hperm : (providers_for op (registry_after ps)).Perm
      (ps.filter fun p => p.op == op) :=
    List.Perm.filter _ (registry_after_perm ps)
  have hsorted : List.Pairwise provLe (providers_for op (registry_after ps)) :=
    List.Pairwise.filter _ (registry_after_sorted ps)
  have hops : ∀ p ∈ providers_for op (registry_after ps), p.op = op := by
    intro p hp
    have := List.of_mem_filter hp
    simpa using this
  have hkey : List.Pairwise
      (fun a b => a.priority < b.priority ∨
        (a.priority = b.priority ∧
          (kindRank a.kind < kindRank b.kind ∨
            (a.kind = b.kind ∧ a.instance_id ≤ b.instance_id))))
      (providers_for op (registry_after ps)) := by
    refine hsorted.imp_of_mem ?_
    intro a b ha hb hab
    exact provLe_of_op_eq ((hops a ha).trans (hops b hb).symm) hab
  refine ⟨hperm, hkey, hkey.imp ?_⟩
  intro a b h
  rcases h with h | ⟨h, _⟩
  · exact le_of_lt h
  · exact le_of_eq h

/-- The task `fft_execute` constructs (src/dash/fft.cpp:33-38): app is the
op name, `required` is the front provider's kind, the estimated runtime is
15 ms.  `tid` is the value of the process-wide id counter, `now` the
construction-time `steady_clock` reading. -/
def fft_task (p : Provider) (tid : Nat) (now : Int) : Task :=
  { id := tid, app := "fft", priority := 0, release_time := now,
    depends_on := [], required := p.kind, est_runtime_ns := 15000000 }

/-- The task `zip_execute` constructs (src/dash/zip.cpp:34-39): estimated
runtime 12 ms. -/
def zip_task (p : Provider) (tid : Nat) (now : Int) : Task :=
  { id := tid, app := "zip", priority := 0, release_time := now,
    depends_on := [], required := p.kind, est_runtime_ns := 12000000 }

/-- `fft_execute` (src/dash/fft.cpp:23-45).  Oracle inputs: `provs` is what
`providers_for` returned for the op, `sched_bound` whether
`dash::scheduler()` is non-null, `delivered` the boolean the completion
future resolves to.  Returns the task handed to `submit` (none when the call
bails out before submitting) and the caller-visible boolean.  The
constructed context's `ok` field is never read on this path: the source
returns `fut.get()` unmodified. -/
def fft_execute (provs : List Provider) (sched_bound : Bool) (tid : Nat)
    (now : Int) (delivered : Bool) : Option Task × Bool :=
  match provs with
  | [] => (none, false)
  | p :: _ =>
    if !sched_bound then (none, false)
    else (some (fft_task p tid now), delivered)

/-- `zip_execute` (src/dash/zip.cpp:23-47): same shape as `fft_execute`
(`auto ok = fut.get(); return ok;`). -/
def zip_execute (provs : List Provider) (sched_bound : Bool) (tid : Nat)
    (now : Int) (delivered : Bool) : Option Task × Bool :=
  match provs with
  | [] => (none, false)
  | p :: _ =>
    if !sched_bound then (none, false)
    else (some (zip_task p tid now), delivered)

/-- The return value the spec's sentence prescribes for the façades:
"block on the receiver; return its value AND-ed with `ctx.ok`" — stated
from the spec's words for comparison with the source's `fft_execute`. -/
def facade_value_spec (provs : List Provider) (sched_bound delivered ctx_ok : Bool) :
    Bool :=
  if provs.isEmpty then false
  else if !sched_bound then false
  else delivered && ctx_ok

/-- A registered hardware fft provider used by the concrete scenarios. -/
def fftProvider : Provider :=
  { op := "fft", kind := ResourceKind.FFT, instance_id := 0, priority := 0 }

/-- C1 counterexample: one fft provider registered, scheduler bound, the
completion signal delivers `true` while the kernel context's `ok` is `false`
(reachable: a mock-mode FPGA slot run reports ok=true without ever touching
the caller's context, whose `ok` field is initialised `false`,
src/dash/contexts.hpp:21, src/accelerators.cpp:749-753).  The façade returns
`true`, but the claimed value — the delivered boolean AND-ed with `ctx.ok` —
is `false`. -/
theorem C1_counterexample :
    (fft_execute [fftProvider] true 1000 0 true).2 = true ∧
      facade_value_spec [fftProvider] true true false = false := by decide

/-- C1 (amended): when at least one provider for the op is registered and a
scheduler is bound, `fft_execute` (resp. `zip_execute`) returns exactly the
boolean delivered on the task's completion signal — it is not AND-ed with
the kernel context's `ok` field. -/
theorem C1_facade_returns_delivered (provs : List Provider) (sb : Bool)
    (tidF tidZ : Nat) (nowF nowZ : Int) (d : Bool)
    (hp : provs ≠ []) (hs : sb = true) :
    (fft_execute provs sb tidF nowF d).2 = d ∧
      (zip_execute provs sb tidZ nowZ d).2 = d := by
  subst hs
  cases provs with
  | nil => exact absurd rfl hp
  | cons p ps => simp [fft_execute, zip_execute]

/-- Witness for C1 at a concrete input: one provider, bound scheduler, the
delivered value `true` comes straight back from both façades. -/
theorem C1_facade_returns_delivered_witness :
    (fft_execute [fftProvider] true 1000 0 true).2 = true ∧
      (zip_execute [fftProvider] true 2000 0 true).2 = true :=
  C1_facade_returns_delivered [fftProvider] true 1000 2000 0 0 true
    (by decide) rfl

end dash

namespace schedrt

/-- `struct AppDescriptor` (include/schedrt/accelerator.hpp:9-14). -/
structure AppDescriptor where
  app : String
  bitstream_path : String
  kernel_name : String
  kind : ResourceKind
deriving DecidableEq, Repr

/-- The fields of `FpgaSlotOptions` (include/schedrt/accelerator.hpp:27-35)
that steer `load_bitstream`: `mock_mode`, and whether a PR decouple GPIO is
configured (`pr_gpio_number >= 0`). -/
structure FpgaSlotOptions where
  mock_mode : Bool
  has_pr_gpio : Bool
deriving DecidableEq, Repr

/-- The mutable state of an `FpgaSlotAccelerator`
(include/schedrt/accelerator.hpp:61-65): `current_app_` (empty string =
none), `current_kind_`, `configured_`, `static_loaded_`.  The class has no
Failed state or flag. -/
structure SlotState where
  current_app : String
  current_kind : ResourceKind
  configured : Bool
  static_loaded : Bool
deriving DecidableEq, Repr

/-- Outcomes of the I/O collaborators `load_bitstream` touches in real mode
(src/accelerators.cpp:790-806): the decouple-GPIO write, opening the FPGA
manager sysfs node, and the firmware-name write. -/
structure LoadEnv where
  gpio_ok : Bool
  manager_open_ok : Bool
  write_ok : Bool
deriving DecidableEq, Repr

/-- `FpgaSlotAccelerator::load_bitstream` (src/accelerators.cpp:773-809).
Returns `(ok, attempted)` where `attempted` records whether control passed
the empty-path guard (i.e. any load action, mock or real, took place).  An
empty path short-circuits to success before either the mock or the hardware
branch. -/
def load_bitstream (opts : FpgaSlotOptions) (env : LoadEnv) (path : String) :
    Bool × Bool :=
  if path = "" then (true, false)
  else if opts.mock_mode then (true, true)
  else if opts.has_pr_gpio && !env.gpio_ok then (false, true)
  else if !env.manager_open_ok then (false, true)
  else if !env.write_ok then (false, true)
  else (true, true)

/-- Result of `ensure_app_loaded`: the slot state after the call, the
returned boolean, and whether a bitstream load was attempted. -/
structure EnsureResult where
  state : SlotState
  ok : Bool
  load_attempted : Bool
deriving DecidableEq, Repr

/-- `FpgaSlotAccelerator::ensure_app_loaded` (src/accelerators.cpp:690-704):
no-op when the slot is already configured with the same app name; otherwise
load the descriptor's bitstream, and only on success update `current_app_`,
`current_kind_`, `configured_`.  On failure the method logs and returns
false, leaving every state field as it was. -/
def ensure_app_loaded (opts : FpgaSlotOptions) (env : LoadEnv) (st : SlotState)
    (app : AppDescriptor) : EnsureResult :=
  if st.configured && st.current_app == app.app then ⟨st, true, false⟩
  else if (load_bitstream opts env app.bitstream_path).1 then
    ⟨{ st with current_app := app.app, current_kind := app.kind,
               configured := true }, true, (load_bitstream opts env app.bitstream_path).2⟩
  else ⟨st, false, (load_bitstream opts env app.bitstream_path).2⟩

/-- A real-mode slot with no decouple GPIO. -/
def slotOptsReal : FpgaSlotOptions := { mock_mode := false, has_pr_gpio := false }

/-- An environment in which opening the FPGA manager node fails. -/
def envMgrFail : LoadEnv := { gpio_ok := true, manager_open_ok := false, write_ok := true }

/-- An environment in which every I/O step succeeds. -/
def envAllOk : LoadEnv := { gpio_ok := true, manager_open_ok := true, write_ok := true }

/-- A slot that has the fft overlay loaded. -/
def stLoadedFft : SlotState :=
  { current_app := "fft", current_kind := ResourceKind.FFT,
    configured := true, static_loaded := true }

/-- A zip descriptor with a real bitstream path. -/
def zipDesc : AppDescriptor :=
  { app := "zip", bitstream_path := "zip.bit", kernel_name := "zip_kernel",
    kind := ResourceKind.ZIP }

/-- C4 counterexample: a slot currently holding the fft overlay is asked to
load zip and the bitstream load fails (the FPGA manager node cannot be
opened).  `ensure_app_loaded` returns false, yet `current_app` still reads
"fft" — it is not cleared, and no state moves to any Failed value (the class
has no such state). -/
theorem C4_counterexample :
    (ensure_app_loaded slotOptsReal envMgrFail stLoadedFft zipDesc).ok = false ∧
      (ensure_app_loaded slotOptsReal envMgrFail stLoadedFft zipDesc).state.current_app
        = "fft" := by decide

/-- C4 (amended): if `ensure_app_loaded` fails, the slot state is completely
unchanged — `current_app`, `current_kind`, `configured` and `static_loaded`
all keep their previous values; in particular a previously loaded app stays
recorded, and there is no Failed state to move to. -/
theorem C4_load_failure_leaves_state (opts : FpgaSlotOptions) (env : LoadEnv)
    (st : SlotState) (app : AppDescriptor)
    (h : (ensure_app_loaded opts env st app).ok = false) :
    (ensure_app_loaded opts env st app).state = st := by
  unfold ensure_app_loaded at *
  split_ifs at h ⊢ with h1 h2
  all_goals rfl

/-- Witness for C4 at the counterexample input: the failed zip load leaves
the fft-configured state intact. -/
theorem C4_load_failure_leaves_state_witness :
    (ensure_app_loaded slotOptsReal envMgrFail stLoadedFft zipDesc).state
      = stLoadedFft :=
  C4_load_failure_leaves_state slotOptsReal envMgrFail stLoadedFft zipDesc
    (by decide)

/-- A slot already configured with app name "x" of kind FFT. -/
def stLoadedX : SlotState :=
  { current_app := "x", current_kind := ResourceKind.FFT,
    configured := true, static_loaded := false }

/-- A descriptor for the same app name "x" but kind ZIP and empty path. -/
def xDescZip : AppDescriptor :=
  { app := "x", bitstream_path := "", kernel_name := "", kind := ResourceKind.ZIP }

/-- C9 counterexample: the slot already holds an overlay under app name "x"
with kind FFT; `ensure_app_loaded` is called with an "x" descriptor of kind
ZIP and empty bitstream path.  The early no-op return fires: the call
reports true, but `current_kind` stays FFT — it does not become the
descriptor's kind. -/
theorem C9_counterexample :
    (ensure_app_loaded slotOptsReal envAllOk stLoadedX xDescZip).ok = true ∧
      ¬ (ensure_app_loaded slotOptsReal envAllOk stLoadedX xDescZip).state.current_kind
          = xDescZip.kind := by decide

/-- C9 (amended): for every slot state and every descriptor with an empty
`bitstream_path`, `ensure_app_loaded` returns true and attempts no bitstream
load (mock or real), and afterwards `current_app` equals the descriptor's app
name and the slot is configured; `current_kind` equals the descriptor's kind
whenever the call is not the no-op early return for an already-configured
identical app name (in that no-op case `current_kind` keeps its old value). -/
theorem C9_empty_bitstream_loads_nothing (opts : FpgaSlotOptions) (env : LoadEnv)
    (st : SlotState) (app : AppDescriptor) (h : app.bitstream_path = "") :
    (ensure_app_loaded opts env st app).ok = true ∧
      (ensure_app_loaded opts env st app).load_attempted = false ∧
      (ensure_app_loaded opts env st app).state.current_app = app.app ∧
      (ensure_app_loaded opts env st app).state.configured = true ∧
      (¬ (st.configured = true ∧ st.current_app = app.app) →
        (ensure_app_loaded opts env st app).state.current_kind = app.kind) := by
  have hl : load_bitstream opts env app.bitstream_path = (true, false) := by
    rw [h]; simp [load_bitstream]
  unfold ensure_app_loaded
  rw [hl]
  split_ifs with h1 h2
  · have hc := (Bool.and_eq_true _ _).mp h1
    have happ : st.current_app = app.app := by simpa using hc.2
    exact ⟨rfl, rfl, happ, hc.1, fun hcon => absurd ⟨hc.1, happ⟩ hcon⟩
  · exact ⟨rfl, rfl, rfl, rfl, fun _ => rfl⟩
  · simp at h2

/-- A fresh slot: nothing configured. -/
def stBlank : SlotState :=
  { current_app := "", current_kind := ResourceKind.CPU,
    configured := false, static_loaded := false }

/-- An fft descriptor whose bitstream path is empty. -/
def fftDescNoPath : AppDescriptor :=
  { app := "fft", bitstream_path := "", kernel_name := "", kind := ResourceKind.FFT }

/-- Witness for C9 at a concrete input: an unconfigured slot and an fft
descriptor with empty path — the slot reports the overlay as loaded though
nothing was programmed. -/
theorem C9_empty_bitstream_loads_nothing_witness :
    (ensure_app_loaded slotOptsReal envAllOk stBlank fftDescNoPath).ok = true ∧
      (ensure_app_loaded slotOptsReal envAllOk stBlank fftDescNoPath).load_attempted
        = false ∧
      (ensure_app_loaded slotOptsReal envAllOk stBlank fftDescNoPath).state.current_app
        = fftDescNoPath.app ∧
      (ensure_app_loaded slotOptsReal envAllOk stBlank fftDescNoPath).state.configured
        = true ∧
      (¬ (stBlank.configured = true ∧ stBlank.current_app = fftDescNoPath.app) →
        (ensure_app_loaded slotOptsReal envAllOk stBlank fftDescNoPath).state.current_kind
          = fftDescNoPath.kind) :=
  C9_empty_bitstream_loads_nothing slotOptsReal envAllOk stBlank fftDescNoPath
    (by decide)

/-- A snapshot view of one registered accelerator, as `select_accelerator`
and `maybe_preload` observe it (src/scheduler.cpp:207-257): the dynamic
answers of `is_available()`, `is_reconfigurable()`, whether the
`dynamic_cast<FpgaSlotAccelerator*>` succeeds, `current_app()`, and whether
an `ensure_app_loaded` call on it would succeed, captured as oracle fields
of the snapshot. -/
structure Accel where
  name : String
  available : Bool
  reconfigurable : Bool
  is_slot : Bool
  slot_current_app : String
  ensure_load_ok : Bool
deriving DecidableEq, Repr

/-- The available accelerators, in insertion order (the snapshot loop at
src/scheduler.cpp:211-220 keeps order and drops unavailable ones). -/
def avail_of (accs : List Accel) : List Accel :=
  accs.filter fun a => a.available

/-- `cpu_candidates`: available, not reconfigurable (src/scheduler.cpp:217). -/
def cpu_candidates (accs : List Accel) : List Accel :=
  (avail_of accs).filter fun a => !a.reconfigurable

/-- `reconfigurable`: available, reconfigurable (src/scheduler.cpp:215). -/
def reconf_of (accs : List Accel) : List Accel :=
  (avail_of accs).filter fun a => a.reconfigurable

/-- The hardware walk of `select_accelerator` (src/scheduler.cpp:223-229):
visit the reconfigurable accelerators in order, skipping any that is not an
`FpgaSlotAccelerator`; take the first whose `current_app()` equals the
task's app (no load), else the first on which `ensure_app_loaded` succeeds.
Also returns the names of the slots on which `ensure_app_loaded` was
invoked during the walk. -/
def hw_walk (t_app : String) : List Accel → Option Accel × List String
  | [] => (none, [])
  | a :: rest =>
    if !a.is_slot then hw_walk t_app rest
    else if a.slot_current_app == t_app then (some a, [])
    else if a.ensure_load_ok then (some a, [a.name])
    else ((hw_walk t_app rest).1, a.name :: (hw_walk t_app rest).2)

/-- The hardware branch guard of `select_accelerator`
(src/scheduler.cpp:222): taken only when `!use_cpu_` and the task does not
require a CPU. -/
def hw_choice (use_cpu : Bool) (required : ResourceKind) (t_app : String)
    (accs : List Accel) : Option Accel × List String :=
  if use_cpu = false ∧ required ≠ ResourceKind.CPU then hw_walk t_app (reconf_of accs)
  else (none, [])

/-- `Scheduler::Impl::select_accelerator` (src/scheduler.cpp:207-235),
returning the chosen accelerator (`none` = "No accelerator available") and
the names of slots on which the hardware walk invoked `ensure_app_loaded`. -/
def select_accelerator (use_cpu : Bool) (required : ResourceKind) (t_app : String)
    (accs : List Accel) : Option Accel × List String :=
  match (hw_choice use_cpu required t_app accs).1 with
  | some a => (some a, (hw_choice use_cpu required t_app accs).2)
  | none =>
    match cpu_candidates accs with
    | c :: _ => (some c, (hw_choice use_cpu required t_app accs).2)
    | [] =>
      if use_cpu = false then
        match reconf_of accs with
        | r :: _ => (some r, (hw_choice use_cpu required t_app accs).2)
        | [] => (none, (hw_choice use_cpu required t_app accs).2)
      else (none, (hw_choice use_cpu required t_app accs).2)

/-- An available reconfigurable FPGA slot with nothing loaded, on which a
load would succeed. -/
def reconSlot : Accel :=
  { name := "fpga-slot-0", available := true, reconfigurable := true,
    is_slot := true, slot_current_app := "", ensure_load_ok := true }

/-- C6 counterexample: the scheduler runs in CPU mode (`use_cpu_ = true`),
the snapshot holds one available reconfigurable accelerator and no CPU
worker.  The claim's fallback ("if the snapshot contains any reconfigurable
accelerator, return the first") predicts `some reconSlot`; the code's
fallback is guarded by `!use_cpu_` (src/scheduler.cpp:233) and returns
none. -/
theorem C6_counterexample :
    (select_accelerator true ResourceKind.FFT reconSlot.slot_current_app
        [reconSlot]).1 = none ∧
      reconSlot.available = true ∧ reconSlot.reconfigurable = true := by decide

/-- C6 (amended): when the hardware path is not taken or yields no slot, the
first CPU worker accelerator is chosen if one exists; otherwise, **only when
the scheduler is not in CPU mode** (`use_cpu_ = false`), the first
reconfigurable accelerator is chosen as best-effort fallback; otherwise
selection fails.  In CPU mode with no CPU worker in the snapshot, selection
fails even if reconfigurable accelerators are present. -/
theorem C6_fallback_order (use_cpu : Bool) (required : ResourceKind)
    (t_app : String) (accs : List Accel)
    (hhw : (hw_choice use_cpu required t_app accs).1 = none) :
    (select_accelerator use_cpu required t_app accs).1 =
      match cpu_candidates accs with
      | c :: _ => some c
      | [] =>
        if use_cpu = false then
          match reconf_of accs with
          | r :: _ => some r
          | [] => none
        else none := by
  unfold select_accelerator
  rw [hhw]
  cases cpu_candidates accs with
  | cons c cs => rfl
  | nil =>
    by_cases hu : use_cpu = false
    · rw [if_pos hu, if_pos hu]
      cases reconf_of accs with
      | cons r rs => rfl
      | nil => rfl
    · rw [if_neg hu, if_neg hu]

/-- A CPU worker accelerator as the scheduler snapshots it. -/
def cpuWorker : Accel :=
  { name := "cpu-mock-0", available := true, reconfigurable := false,
    is_slot := false, slot_current_app := "", ensure_load_ok := true }

/-- Witness for C6 at a concrete input: CPU mode, snapshot holding a CPU
worker and a slot — the CPU worker is chosen. -/
theorem C6_fallback_order_witness :
    (select_accelerator true ResourceKind.CPU reconSlot.slot_current_app
        [cpuWorker, reconSlot]).1 =
      match cpu_candidates [cpuWorker, reconSlot] with
      | c :: _ => some c
      | [] =>
        if (true : Bool) = false then
          match reconf_of [cpuWorker, reconSlot] with
          | r :: _ => some r
          | [] => none
        else none :=
  C6_fallback_order true ResourceKind.CPU reconSlot.slot_current_app
    [cpuWorker, reconSlot] (by decide)

/-- `Scheduler::Impl::record_ready` (src/scheduler.cpp:187-205).  The
per-app ready counter map `ready_app_counts_` is embedded as a function
`String → Option Int` (`none` = no entry).  Returns the updated map and the
`high_demand_app` that triggers `maybe_preload` (`none` = the empty string,
i.e. no preload).  The updated count is clamped at 0
(`count = std::max(0, count + delta)`); a zero count erases the entry;
`high_demand_app` is set only on a positive delta with a positive threshold
once the count reaches the threshold. -/
def record_ready (threshold : Nat) (counts : String → Option Int) (app : String)
    (delta : Int) : (String → Option Int) × Option String :=
  if delta = 0 then (counts, none)
  else if max 0 ((counts app).getD 0 + delta) = 0 then
    (fun a => if a = app then none else counts a, none)
  else
    (fun a => if a = app then some (max 0 ((counts app).getD 0 + delta)) else counts a,
      if 0 < delta ∧ 0 < threshold ∧
          (threshold : Int) ≤ max 0 ((counts app).getD 0 + delta)
        then some app else none)

/-- The snapshot loop of `maybe_preload` (src/scheduler.cpp:242-252): walk
the available accelerators; skip non-slots; if some slot already has the app
loaded, return early with no candidates (`none`); otherwise collect the
slots in order. -/
def collect_preload_slots (app : String) : List Accel → Option (List Accel)
  | [] => some []
  | a :: rest =>
    if !a.is_slot then collect_preload_slots app rest
    else if a.slot_current_app == app then none
    else (collect_preload_slots app rest).map fun l => a :: l

/-- The load loop of `maybe_preload` (src/scheduler.cpp:254-256): invoke
`ensure_app_loaded` on each collected slot until one succeeds; returns the
names of the slots invoked. -/
def preload_invoke : List Accel → List String
  | [] => []
  | s :: rest => if s.ensure_load_ok then [s.name] else s.name :: preload_invoke rest

/-- `Scheduler::Impl::maybe_preload` (src/scheduler.cpp:237-257): bail out in
CPU mode or with a zero threshold, or when the app is not registered; else
collect candidate slots and invoke loads.  Returns the names of slots on
which `ensure_app_loaded` was invoked. -/
def maybe_preload (use_cpu : Bool) (threshold : Nat)
    (reg : String → Option AppDescriptor) (accs : List Accel) (app : String) :
    List String :=
  if use_cpu = true ∨ threshold = 0 then []
  else
    match reg app with
    | none => []
    | some _ =>
      match collect_preload_slots app (avail_of accs) with
      | none => []
      | some slots => preload_invoke slots

/-- `record_ready` followed by the `maybe_preload` call it triggers
(src/scheduler.cpp:204): the updated counts and the `ensure_app_loaded`
invocations of the preload path. -/
def record_ready_full (use_cpu : Bool) (threshold : Nat)
    (reg : String → Option AppDescriptor) (accs : List Accel)
    (counts : String → Option Int) (app : String) (delta : Int) :
    (String → Option Int) × List String :=
  ((record_ready threshold counts app delta).1,
    match (record_ready threshold counts app delta).2 with
    | some a => maybe_preload use_cpu threshold reg accs a
    | none => [])

/-- Which caller performed an `ensure_app_loaded` invocation: the hardware
walk of `select_accelerator`, the preload path, or `FpgaSlotAccelerator::run`
itself (src/accelerators.cpp:722). -/
inductive InvPhase where
  | fromSelect
  | fromPreload
  | fromRun
deriving DecidableEq, Repr

/-- One `worker_loop` iteration on a popped task (src/scheduler.cpp:133-153),
recording every `ensure_app_loaded` invocation it causes, tagged by phase:
`record_ready(task, -1)` (which can trigger the preload path), then — if the
app is registered — `select_accelerator` (whose hardware walk can invoke
loads outside `run`), then `run` on the chosen accelerator (an FPGA slot's
`run` re-invokes `ensure_app_loaded` as its first step; a CPU worker's `run`
does not). -/
def worker_process (threshold : Nat) (use_cpu : Bool)
    (reg : String → Option AppDescriptor) (accs : List Accel)
    (counts : String → Option Int) (t : Task) : List (InvPhase × String) :=
  ((record_ready_full use_cpu threshold reg accs counts t.app (-1)).2.map
      fun n => (InvPhase.fromPreload, n)) ++
    match reg t.app with
    | none => []
    | some _ =>
      ((select_accelerator use_cpu t.required t.app accs).2.map
          fun n => (InvPhase.fromSelect, n)) ++
        match (select_accelerator use_cpu t.required t.app accs).1 with
        | none => []
        | some a => if a.is_slot then [(InvPhase.fromRun, a.name)] else []

theorem record_ready_zero_threshold (counts : String → Option Int) (app : String)
    (delta : Int) : (record_ready 0 counts app delta).2 = none := by
  unfold record_ready
  split_ifs with h1 h2 h3
  · rfl
  · rfl
  · exact absurd h3.2.1 (lt_irrefl 0)
  · rfl

/-- The fft op name. -/
def fftOp : String := "fft"

/-- An fft descriptor with a bitstream path. -/
def fftDesc : AppDescriptor :=
  { app := "fft", bitstream_path := "fft.bit", kernel_name := "fft_kernel",
    kind := ResourceKind.FFT }

/-- A registry in which only fft is registered. -/
def regFftOnly : String → Option AppDescriptor :=
  fun s => if s = fftOp then some fftDesc else none

/-- An fft task requiring the FFT resource. -/
def taskFft : Task :=
  { id := 7, app := fftOp, priority := 0, release_time := 0, depends_on := [],
    required := ResourceKind.FFT, est_runtime_ns := 0 }

/-- The empty per-app counter map. -/
def countsEmpty : String → Option Int := fun _ => none

/-- C7 counterexample: with `preload_threshold = 0`, FPGA mode, the fft app
registered and one empty slot, a single worker iteration invokes
`ensure_app_loaded` on the slot **from `select_accelerator`'s hardware
walk** — before, and outside of, the `run` call — refuting "no invocation of
ensure_app_loaded ever occurs outside a run call". -/
theorem C7_counterexample :
    (InvPhase.fromSelect, reconSlot.name) ∈
      worker_process 0 false regFftOnly [reconSlot] countsEmpty taskFft := by
  decide

/-- C7 (amended): if `preload_threshold = 0`, the preload path performs no
`ensure_app_loaded` invocation at all — `record_ready` never reports a
high-demand app, so `maybe_preload` is never entered — and every invocation
a worker iteration performs is tagged `fromSelect` or `fromRun`, i.e. occurs
while the worker services the popped task (speculative loads are disabled);
invocations from `select_accelerator`'s walk do still occur outside `run`. -/
theorem C7_zero_threshold_no_preload (use_cpu : Bool)
    (reg : String → Option AppDescriptor) (accs : List Accel)
    (counts : String → Option Int) (app : String) (delta : Int) (t : Task) :
    (record_ready_full use_cpu 0 reg accs counts app delta).2 = [] ∧
      ∀ ph n, (ph, n) ∈ worker_process 0 use_cpu reg accs counts t →
        ph ≠ InvPhase.fromPreload := by
  have hfull : ∀ (c : String → Option Int) (a : String) (d : Int),
      (record_ready_full use_cpu 0 reg accs c a d).2 = [] := by
    intro c a d
    unfold record_ready_full
    rw [record_ready_zero_threshold]
  refine ⟨hfull counts app delta, ?_⟩
  intro ph n hmem
  unfold worker_process at hmem
  rw [hfull counts t.app (-1)] at hmem
  simp only [List.map_nil, List.nil_append] at hmem
  intro hphase
  subst hphase
  cases hreg : reg t.app with
  | none => rw [hreg] at hmem; simp at hmem
  | some d =>
    rw [hreg] at hmem
    rcases List.mem_append.mp hmem with h | h
    · rcases List.mem_map.mp h with ⟨x, _, hx⟩
      exact absurd (congrArg Prod.fst hx) (by simp)
    · cases hsel : (select_accelerator use_cpu t.required t.app accs).1 with
      | none => rw [hsel] at h; simp at h
      | some a =>
        rw [hsel] at h
        by_cases hs : a.is_slot
        · simp [hs] at h
        · simp [hs] at h

/-- Witness for C7 at a concrete input: zero threshold, FPGA mode, fft
registered, one slot; the preload list is empty and no invocation of the
iteration carries the preload tag. -/
theorem C7_zero_threshold_no_preload_witness :
    (record_ready_full false 0 regFftOnly [reconSlot] countsEmpty fftOp 1).2 = [] ∧
      ∀ ph n, (ph, n) ∈ worker_process 0 false regFftOnly [reconSlot] countsEmpty taskFft →
        ph ≠ InvPhase.fromPreload :=
  C7_zero_threshold_no_preload false regFftOnly [reconSlot] countsEmpty fftOp 1 taskFft

/-- C8 counterexample: the `ResourceKind` enumeration declared by the code
(include/schedrt/task.hpp:12) has exactly the three values CPU, ZIP and FFT
— its universe is `{CPU, ZIP, FFT}` and its cardinality is 3.  There is no
fourth enumerator FIR, so "FIR is a constructible value of the ResourceKind
type" is false. -/
theorem C8_counterexample :
    (Finset.univ : Finset ResourceKind) =
        {ResourceKind.CPU, ResourceKind.ZIP, ResourceKind.FFT} ∧
      Fintype.card ResourceKind = 3 := by decide

/-- C8 (amended): a task's `required` field ranges over the resource kinds
{CPU, ZIP, FFT}: every `ResourceKind` value is one of these three, and each
of the three is carried by some constructible task.  FIR is not among them. -/
theorem C8_resource_kinds (k : ResourceKind) :
    (k = ResourceKind.CPU ∨ k = ResourceKind.ZIP ∨ k = ResourceKind.FFT) ∧
      ∃ t : Task, t.required = k := by
  constructor
  · cases k
    · exact Or.inl rfl
    · exact Or.inr (Or.inl rfl)
    · exact Or.inr (Or.inr rfl)
  · exact ⟨{ id := 0, app := "", priority := 0, release_time := 0,
             depends_on := [], required := k, est_runtime_ns := 0 }, rfl⟩

/-- The counter map after a sequence of `record_ready` calls
(`(app, delta)` pairs), starting from the empty map. -/
def counts_after (threshold : Nat) (ops : List (String × Int)) :
    String → Option Int :=
  ops.foldl (fun m p => (record_ready threshold m p.1 p.2).1) fun _ => none

/-- Every count a map stores is at least 1. -/
def counts_inv (m : String → Option Int) : Prop :=
  ∀ a c, m a = some c → 1 ≤ c

theorem record_ready_fst_at (threshold : Nat) (m : String → Option Int)
    (app : String) (delta : Int) (hd : delta ≠ 0) :
    (record_ready threshold m app delta).1 app =
      if max 0 ((m app).getD 0 + delta) = 0 then none
      else some (max 0 ((m app).getD 0 + delta)) := by
  unfold record_ready
  rw [if_neg hd]
  split_ifs with h2 <;> simp

theorem record_ready_preserves_inv (threshold : Nat) (m : String → Option Int)
    (app : String) (delta : Int) (h : counts_inv m) :
    counts_inv (record_ready threshold m app delta).1 := by
  intro a c hc
  by_cases h1 : delta = 0
  · unfold record_ready at hc
    rw [if_pos h1] at hc
    exact h a c hc
  · by_cases ha : a = app
    · subst ha
      rw [record_ready_fst_at threshold m a delta h1] at hc
      split_ifs at hc with h0
      have hval := Option.some.inj hc
      omega
    · have hother : (record_ready threshold m app delta).1 a = m a := by
        unfold record_ready
        split_ifs with h2 h3 <;> simp [ha]
      rw [hother] at hc
      exact h a c hc

theorem counts_after_inv (threshold : Nat) (ops : List (String × Int)) :
    counts_inv (counts_after threshold ops) := by
  unfold counts_after
  suffices h : ∀ m, counts_inv m →
      counts_inv (ops.foldl (fun m p => (record_ready threshold m p.1 p.2).1) m) by
    exact h _ (fun a c hc => by cases hc)
  induction ops with
  | nil => intro m hm; exact hm
  | cons p ps ih =>
    intro m hm
    exact ih _ (record_ready_preserves_inv threshold m p.1 p.2 hm)

/-- C10: for every interleaving of `record_ready` increments and decrements
starting from the empty map, the per-app ready counter is never negative:
every stored count is at least 1, and a further `record_ready` call with a
non-zero delta erases the app's entry exactly when the clamped count
`max 0 (old + delta)` reaches 0, and otherwise stores exactly that clamped
(non-negative) count. -/
theorem C10_ready_counts_clamped (threshold : Nat) (ops : List (String × Int)) :
    (∀ a c, counts_after threshold ops a = some c → 1 ≤ c) ∧
      ∀ app delta, delta ≠ 0 →
        ((record_ready threshold (counts_after threshold ops) app delta).1 app = none
            ↔ (counts_after threshold ops app).getD 0 + delta ≤ 0) ∧
          ∀ c,
            (record_ready threshold (counts_after threshold ops) app delta).1 app
                = some c →
              c = max 0 ((counts_after threshold ops app).getD 0 + delta) := by
  refine ⟨counts_after_inv threshold ops, ?_⟩
  intro app delta hd
  rw [record_ready_fst_at threshold _ app delta hd]
  constructor
  · split_ifs with h0
    · exact iff_of_true rfl (by omega)
    · exact iff_of_false (by simp) (by omega)
  · intro c hc
    split_ifs at hc with h0
    have hval := Option.some.inj hc
    omega

/-- Witness for C10 at a concrete input: after one increment for app `opA`,
the stored count is clamped ≥ 1, and a decrement erases the entry exactly
because the clamped count reaches 0. -/
theorem C10_ready_counts_clamped_witness :
    (∀ a c, counts_after 2 [(fftOp, 1)] a = some c → 1 ≤ c) ∧
      ((record_ready 2 (counts_after 2 [(fftOp, 1)]) fftOp (-1)).1 fftOp = none
          ↔ (counts_after 2 [(fftOp, 1)] fftOp).getD 0 + (-1) ≤ 0) :=
  ⟨(C10_ready_counts_clamped 2 [(fftOp, 1)]).1,
    ((C10_ready_counts_clamped 2 [(fftOp, 1)]).2 fftOp (-1) (by decide)).1⟩

end schedrt
